import Mathlib

set_option maxRecDepth 8000

/-!
# Verification of `@opensourceframework/next-json-ld`

A shallow embedding of the JSON-LD schema-builder library (`src/index.ts`)
together with proofs of the specified properties.

JavaScript objects produced by the builders are modelled as ordered
association lists of string keys and `Value`s, where `Value` mirrors the
JavaScript values that actually occur: strings, numbers (modelled as ℚ),
booleans, `undefined`, arrays and nested objects.  Conditional property
assignment (`if (x) { schema.k = ...; }`) is modelled by appending a
zero-or-one-element segment to the list, preserving the source's insertion
order.  JavaScript truthiness on `string | undefined` fields (false exactly
for `undefined` and `""`) is modelled explicitly.
-/

namespace NextJsonLd

/-- A JavaScript value as produced by the builders. -/
inductive Value where
  | vstr (s : String)
  | vnum (q : ℚ)
  | vbool (b : Bool)
  | undef
  | varr (xs : List Value)
  | vobj (fields : List (String × Value))

/-- A JavaScript object: ordered key/value list. -/
abbrev JsObject := List (String × Value)

/-- Property read: first binding of the key (builders never bind a key twice). -/
def getField : JsObject → String → Option Value
  | [], _ => none
  | (k, v) :: rest, key => if k = key then some v else getField rest key

/-- JavaScript truthiness of a `string | undefined` value:
false exactly for `undefined` and the empty string. -/
def truthyStr : Option String → Bool
  | some s => !(s = "")
  | none => false

/-- Models `if (x) { schema.key = x; }` for an optional string field `x`. -/
def optStrField (key : String) (v : Option String) : JsObject :=
  match v with
  | some s => if s = "" then [] else [(key, .vstr s)]
  | none => []

-- ============================================================================
-- Input option types (from src/index.ts)
-- ============================================================================

/-- The `GeoCoordinates` input interface. -/
structure GeoCoordinates where
  latitude : ℚ
  longitude : ℚ

/-- The `ServiceArea` input interface. -/
structure ServiceArea where
  geoMidpoint : Option GeoCoordinates := none
  geoRadius : Option String := none
  city : Option String := none
  region : Option String := none
  country : Option String := none

/-- Weekday literals of `OpeningHours.dayOfWeek`. -/
inductive Weekday where
  | monday | tuesday | wednesday | thursday | friday | saturday | sunday
deriving DecidableEq

def Weekday.str : Weekday → String
  | .monday => "Monday"
  | .tuesday => "Tuesday"
  | .wednesday => "Wednesday"
  | .thursday => "Thursday"
  | .friday => "Friday"
  | .saturday => "Saturday"
  | .sunday => "Sunday"

/-- The `OpeningHours` input interface. -/
structure OpeningHours where
  dayOfWeek : Option (List Weekday) := none
  opens : Option String := none
  closes : Option String := none
  open24Hours : Option Bool := none

/-- The `OrganizationInfo` input interface. -/
structure OrganizationInfo where
  name : String
  description : Option String := none
  url : String
  logo : Option String := none
  image : Option String := none
  telephone : Option String := none
  email : Option String := none
  priceRange : Option String := none
  sameAs : Option (List String) := none
  id : Option String := none

/-- The `OrganizationSchemaOptions` input interface. -/
structure OrganizationSchemaOptions where
  organization : OrganizationInfo
  areaServed : Option ServiceArea := none
  openingHoursSpecification : Option OpeningHours := none
  type : Option String := none

/-- The `ServiceSchemaOptions` input interface. -/
structure ServiceSchemaOptions where
  name : String
  description : String
  url : String
  image : Option String := none
  provider : OrganizationInfo
  serviceType : Option String := none
  areaServed : Option ServiceArea := none

/-- The `FAQItem` input interface. -/
structure FAQItem where
  question : String
  answer : String

/-- The `BreadcrumbItem` input interface. -/
structure BreadcrumbItem where
  name : String
  url : String

/-- The `ReviewItem` input interface. -/
structure ReviewItem where
  author : String
  reviewBody : String
  reviewRating : ℚ
  datePublished : String

/-- The `ReviewSchemaOptions` input interface. -/
structure ReviewSchemaOptions where
  organization : OrganizationInfo
  reviewCount : ℚ
  ratingValue : ℚ
  bestRating : Option ℚ := none
  worstRating : Option ℚ := none
  reviews : List ReviewItem

/-- The `availability` enum of `ProductSchemaOptions`. -/
inductive Availability where
  | inStock | outOfStock | preOrder | backorder | limitedAvailability
deriving DecidableEq

def Availability.str : Availability → String
  | .inStock => "InStock"
  | .outOfStock => "OutOfStock"
  | .preOrder => "PreOrder"
  | .backorder => "Backorder"
  | .limitedAvailability => "LimitedAvailability"

/-- The `ProductSchemaOptions` input interface.  `image` is `string | string[]`. -/
structure ProductSchemaOptions where
  name : String
  description : String
  image : Option (String ⊕ List String) := none
  url : Option String := none
  brand : Option String := none
  sku : Option String := none
  price : Option ℚ := none
  priceCurrency : Option String := none
  availability : Option Availability := none

/-- The `ArticleSchemaOptions` input interface. -/
structure ArticleSchemaOptions where
  headline : String
  description : Option String := none
  image : Option String := none
  datePublished : String
  dateModified : Option String := none
  author : String
  publisher : String
  publisherLogo : Option String := none
  url : Option String := none

/-- The `eventStatus` enum of `EventSchemaOptions`. -/
inductive EventStatus where
  | scheduled | cancelled | postponed | rescheduled
deriving DecidableEq

def EventStatus.str : EventStatus → String
  | .scheduled => "EventScheduled"
  | .cancelled => "EventCancelled"
  | .postponed => "EventPostponed"
  | .rescheduled => "EventRescheduled"

/-- The `eventAttendanceMode` enum of `EventSchemaOptions`. -/
inductive AttendanceMode where
  | offline | online | mixed
deriving DecidableEq

def AttendanceMode.str : AttendanceMode → String
  | .offline => "OfflineEventAttendanceMode"
  | .online => "OnlineEventAttendanceMode"
  | .mixed => "MixedEventAttendanceMode"

/-- Location input of `EventSchemaOptions`. -/
structure EventLocation where
  name : String
  address : Option String := none

/-- The `EventSchemaOptions` input interface. -/
structure EventSchemaOptions where
  name : String
  description : Option String := none
  startDate : String
  endDate : Option String := none
  location : Option EventLocation := none
  url : Option String := none
  image : Option String := none
  eventStatus : Option EventStatus := none
  eventAttendanceMode : Option AttendanceMode := none

-- ============================================================================
-- Decimal rendering: `Number.prototype.toFixed(2)`
-- ============================================================================

/-- The decimal digit character for `n` (callers only pass `n < 10`). -/
def digitChar : ℕ → Char
  | 0 => '0'
  | 1 => '1'
  | 2 => '2'
  | 3 => '3'
  | 4 => '4'
  | 5 => '5'
  | 6 => '6'
  | 7 => '7'
  | 8 => '8'
  | _ => '9'

/-- Decimal digit string of a natural number (no leading zeros; `0 ↦ "0"`). -/
def natDigits (n : ℕ) : List Char :=
  if _h : n < 10 then [digitChar n]
  else natDigits (n / 10) ++ [digitChar (n % 10)]
decreasing_by exact Nat.div_lt_self (by omega) (by omega)

/-- Drops the trailing '0' digit characters of a digit string. -/
def stripTrailingZeros (ds : List Char) : List Char :=
  (ds.reverse.dropWhile (fun c => c = '0')).reverse

/-- ECMA-262 `Number::toString` restricted to the regime of `toFixed`'s
large-magnitude branch: at least 22 decimal digits, hence always decimal
exponential notation `d.ddd…e+NN` (or `de+NN` for a single significant
digit).  Every IEEE double of magnitude at least 10²¹ is an integer, so the
branch takes the integer magnitude; on this exact-rational model the digit
string is the value's exact decimal expansion. -/
def expChars (m : ℕ) : List Char :=
  let ds := natDigits m
  match stripTrailingZeros ds with
  | [] => ['0']
  | d :: rest =>
    match rest with
    | [] => d :: 'e' :: '+' :: natDigits (ds.length - 1)
    | _ :: _ => d :: '.' :: (rest ++ 'e' :: '+' :: natDigits (ds.length - 1))

/-- The character list of `x.toFixed(2)` per ECMA-262
`Number.prototype.toFixed`: the sign, then — when the magnitude is at least
10²¹ — plain `Number::toString` of the magnitude (exponential notation, e.g.
`(1e21).toFixed(2) = "1e+21"`); otherwise the nearest multiple of 1/100 of
the magnitude (exact ties to the larger numerator, i.e. away from zero),
written with an integer part, a decimal point and exactly two fractional
digits. -/
def toFixed2Chars (q : ℚ) : List Char :=
  let sign : List Char := if q < 0 then ['-'] else []
  let x : ℚ := |q|
  if 10 ^ 21 ≤ x then sign ++ expChars ⌊x⌋.toNat
  else
    let n : ℕ := ⌊x * 100 + 1 / 2⌋.toNat
    sign ++ (natDigits (n / 100) ++ '.' :: [digitChar (n % 100 / 10), digitChar (n % 10)])

/-- Renders `x.toFixed(2)` as a string. -/
def toFixed2 (q : ℚ) : String := ⟨toFixed2Chars q⟩

-- ============================================================================
-- The builders (from src/index.ts)
-- ============================================================================

/-- The `areaServed` value assigned by `createOrganizationSchema`
(`none` when the source assigns nothing):
`if (areaServed.geoMidpoint && areaServed.geoRadius) … else if (areaServed.city) …`. -/
def areaServedValue (a : ServiceArea) : Option Value :=
  match a.geoMidpoint, a.geoRadius with
  | some mid, some radius =>
    if radius = "" then cityValue a.city
    else some (.vobj [("@type", .vstr "GeoCircle"),
      ("geoMidpoint", .vobj [("@type", .vstr "GeoCoordinates"),
        ("latitude", .vnum mid.latitude),
        ("longitude", .vnum mid.longitude)]),
      ("geoRadius", .vstr radius)])
  | _, _ => cityValue a.city
where
  /-- The `else if (areaServed.city)` branch. -/
  cityValue : Option String → Option Value
    | some c => if c = "" then none else
        some (.vobj [("@type", .vstr "City"), ("name", .vstr c)])
    | none => none

/-- The opening-hours fields assigned by `createOrganizationSchema`:
`if (x.open24Hours) { schema.openingHours = 'Mo-Su'; } else if (x.dayOfWeek && x.opens && x.closes) …`. -/
def openingHoursFields (oh : OpeningHours) : JsObject :=
  if oh.open24Hours.getD false then [("openingHours", .vstr "Mo-Su")]
  else match oh.dayOfWeek, oh.opens, oh.closes with
    | some days, some opens, some closes =>
      if opens = "" then [] else if closes = "" then []
      else [("openingHoursSpecification", .vobj [
        ("@type", .vstr "OpeningHoursSpecification"),
        ("dayOfWeek", .varr (days.map (fun d => .vstr d.str))),
        ("opens", .vstr opens),
        ("closes", .vstr closes)])]
    | _, _, _ => []

/-- Models `if (organization.sameAs && organization.sameAs.length > 0) ...`. -/
def sameAsField (sameAs : Option (List String)) : JsObject :=
  match sameAs with
  | some urls => if urls.length > 0 then [("sameAs", .varr (urls.map .vstr))] else []
  | none => []

/-- The `if (areaServed) { … }` block of `createOrganizationSchema`. -/
def areaServedField (area : Option ServiceArea) : JsObject :=
  match area with
  | some a =>
    match areaServedValue a with
    | some v => [("areaServed", v)]
    | none => []
  | none => []

/-- The `if (openingHoursSpecification) { … }` block of
`createOrganizationSchema`. -/
def openingHoursField (oh : Option OpeningHours) : JsObject :=
  match oh with
  | some spec => openingHoursFields spec
  | none => []

/-- Embeds `createOrganizationSchema` (src/index.ts). -/
def createOrganizationSchema (options : OrganizationSchemaOptions) : JsObject :=
  let organization := options.organization
  [("@context", Value.vstr "https://schema.org"),
   ("@type", Value.vstr (options.type.getD "LocalBusiness")),
   ("name", Value.vstr organization.name),
   ("url", Value.vstr organization.url)]
  ++ optStrField "@id" organization.id
  ++ optStrField "description" organization.description
  ++ optStrField "telephone" organization.telephone
  ++ optStrField "email" organization.email
  ++ optStrField "priceRange" organization.priceRange
  ++ optStrField "image" organization.image
  ++ optStrField "logo" organization.logo
  ++ sameAsField organization.sameAs
  ++ areaServedField options.areaServed
  ++ openingHoursField options.openingHoursSpecification

/-- Embeds `createServiceSchema` (src/index.ts). -/
def createServiceSchema (options : ServiceSchemaOptions) : JsObject :=
  [("@context", Value.vstr "https://schema.org"),
   ("@type", Value.vstr "Service"),
   ("name", Value.vstr options.name),
   ("description", Value.vstr options.description),
   ("url", Value.vstr options.url),
   ("provider", Value.vobj [("@type", .vstr "LocalBusiness"),
     ("name", .vstr options.provider.name),
     ("url", .vstr options.provider.url)])]
  ++ optStrField "image" options.image
  ++ optStrField "serviceType" options.serviceType
  ++ (match options.areaServed with
      | some a => match a.city with
        | some c => if c = "" then [] else
            [("areaServed", .vobj [("@type", .vstr "City"), ("name", .vstr c)])]
        | none => []
      | none => [])

/-- Embeds `createFAQSchema` (src/index.ts). -/
def createFAQSchema (faqs : List FAQItem) : JsObject :=
  [("@context", Value.vstr "https://schema.org"),
   ("@type", Value.vstr "FAQPage"),
   ("mainEntity", Value.varr (faqs.map (fun faq =>
     .vobj [("@type", .vstr "Question"),
       ("name", .vstr faq.question),
       ("acceptedAnswer", .vobj [("@type", .vstr "Answer"), ("text", .vstr faq.answer)])])))]

/-- Models `items.map((item, index) => f item index)` with the running index made explicit. -/
def mapWithIndex (f : α → ℕ → β) : List α → ℕ → List β
  | [], _ => []
  | x :: xs, i => f x i :: mapWithIndex f xs (i + 1)

/-- Embeds `createBreadcrumbSchema` (src/index.ts). -/
def createBreadcrumbSchema (items : List BreadcrumbItem) : JsObject :=
  [("@context", Value.vstr "https://schema.org"),
   ("@type", Value.vstr "BreadcrumbList"),
   ("itemListElement", Value.varr (mapWithIndex (fun item index =>
     .vobj [("@type", .vstr "ListItem"),
       ("position", .vnum ((index : ℚ) + 1)),
       ("name", .vstr item.name),
       ("item", .vstr item.url)]) items 0))]

/-- Embeds `createReviewSchema` (src/index.ts). -/
def createReviewSchema (options : ReviewSchemaOptions) : JsObject :=
  let bestRating := options.bestRating.getD 5
  let worstRating := options.worstRating.getD 1
  [("@context", Value.vstr "https://schema.org"),
   ("@type", Value.vstr "LocalBusiness"),
   ("name", Value.vstr options.organization.name),
   ("aggregateRating", Value.vobj [("@type", .vstr "AggregateRating"),
     ("ratingValue", .vnum options.ratingValue),
     ("reviewCount", .vnum options.reviewCount),
     ("bestRating", .vnum bestRating),
     ("worstRating", .vnum worstRating)]),
   ("review", Value.varr (options.reviews.map (fun review =>
     .vobj [("@type", .vstr "Review"),
       ("author", .vobj [("@type", .vstr "Person"), ("name", .vstr review.author)]),
       ("reviewBody", .vstr review.reviewBody),
       ("reviewRating", .vobj [("@type", .vstr "Rating"),
         ("ratingValue", .vnum review.reviewRating),
         ("bestRating", .vnum bestRating),
         ("worstRating", .vnum worstRating)]),
       ("datePublished", .vstr review.datePublished)])))]

/-- Models `if (image) { schema.image = image; }` where `image : string | string[]`
(a present array is truthy even when empty; a string is truthy iff nonempty). -/
def imageField (image : Option (String ⊕ List String)) : JsObject :=
  match image with
  | some (.inl s) => if s = "" then [] else [("image", .vstr s)]
  | some (.inr l) => [("image", .varr (l.map .vstr))]
  | none => []

/-- Models `if (brand) { schema.brand = ...; }`. -/
def brandField (brand : Option String) : JsObject :=
  match brand with
  | some b => if b = "" then [] else
      [("brand", .vobj [("@type", .vstr "Brand"), ("name", .vstr b)])]
  | none => []

/-- Models `if (price !== undefined && priceCurrency) { schema.offers = ...; }`:
the `offers` sub-record, including the `availability` key whose value is
`undefined` when no availability was supplied. -/
def offersField (price : Option ℚ) (priceCurrency : Option String)
    (availability : Option Availability) : JsObject :=
  match price, priceCurrency with
  | some price, some currency =>
    if currency = "" then []
    else [("offers", .vobj [("@type", .vstr "Offer"),
      ("price", .vstr (toFixed2 price)),
      ("priceCurrency", .vstr currency),
      ("availability", match availability with
        | some a => .vstr ("https://schema.org/" ++ a.str)
        | none => .undef)])]
  | _, _ => []

/-- Embeds `createProductSchema` (src/index.ts). -/
def createProductSchema (options : ProductSchemaOptions) : JsObject :=
  [("@context", Value.vstr "https://schema.org"),
   ("@type", Value.vstr "Product"),
   ("name", Value.vstr options.name),
   ("description", Value.vstr options.description)]
  ++ imageField options.image
  ++ optStrField "url" options.url
  ++ brandField options.brand
  ++ optStrField "sku" options.sku
  ++ offersField options.price options.priceCurrency options.availability

/-- Embeds `createArticleSchema` (src/index.ts). -/
def createArticleSchema (options : ArticleSchemaOptions) : JsObject :=
  [("@context", Value.vstr "https://schema.org"),
   ("@type", Value.vstr "Article"),
   ("headline", Value.vstr options.headline),
   ("datePublished", Value.vstr options.datePublished),
   ("author", Value.vobj [("@type", .vstr "Person"), ("name", .vstr options.author)]),
   ("publisher", Value.vobj [("@type", .vstr "Organization"),
     ("name", .vstr options.publisher),
     ("logo", match options.publisherLogo with
       | some l => if l = "" then .undef else
           .vobj [("@type", .vstr "ImageObject"), ("url", .vstr l)]
       | none => .undef)])]
  ++ optStrField "description" options.description
  ++ optStrField "image" options.image
  ++ optStrField "dateModified" options.dateModified
  ++ (match options.url with
      | some u => if u = "" then [] else
          [("mainEntityOfPage", .vobj [("@type", .vstr "WebPage"), ("@id", .vstr u)])]
      | none => [])

/-- Embeds `createEventSchema` (src/index.ts). -/
def createEventSchema (options : EventSchemaOptions) : JsObject :=
  [("@context", Value.vstr "https://schema.org"),
   ("@type", Value.vstr "Event"),
   ("name", Value.vstr options.name),
   ("startDate", Value.vstr options.startDate)]
  ++ optStrField "description" options.description
  ++ optStrField "endDate" options.endDate
  ++ (match options.location with
      | some loc => [("location", .vobj [("@type", .vstr "Place"),
          ("name", .vstr loc.name),
          ("address", match loc.address with
            | some addr => if addr = "" then .undef else
                .vobj [("@type", .vstr "PostalAddress"), ("streetAddress", .vstr addr)]
            | none => .undef)])]
      | none => [])
  ++ optStrField "url" options.url
  ++ optStrField "image" options.image
  ++ (match options.eventStatus with
      | some s => [("eventStatus", .vstr ("https://schema.org/" ++ s.str))]
      | none => [])
  ++ (match options.eventAttendanceMode with
      | some m => [("eventAttendanceMode", .vstr ("https://schema.org/" ++ m.str))]
      | none => [])

/-- Embeds `mergeSchemas` (src/index.ts): the identity on schema lists. -/
def mergeSchemas (schemas : List JsObject) : List JsObject := schemas

-- ============================================================================
-- JSON texts: `JSON.stringify` / `JSON.parse`
--
-- `createJsonLdScript` delegates to the standard `JSON.stringify`.  We model
-- JSON-representable values (no `undefined`; numbers restricted to integers,
-- since IEEE-754 double rendering is outside a shallow embedding) and both
-- directions of the text encoding: `strVal` follows ECMA-262
-- `JSON.stringify` (no whitespace, insertion order, `QuoteJSONString`
-- escaping: short escapes for \b \t \n \f \r, \u00XX for other control
-- characters, everything else verbatim), and `parseVal` is a standard JSON
-- parser for such texts.
-- ============================================================================

/-- A JSON-representable value. -/
inductive Json where
  | jnull
  | jbool (b : Bool)
  | jnum (n : ℤ)
  | jstr (s : String)
  | jarr (elems : List Json)
  | jobj (members : List (String × Json))

/-- Lower-case hexadecimal digit character for `n` (callers pass `n < 16`). -/
def hexChar : ℕ → Char
  | 0 => '0'
  | 1 => '1'
  | 2 => '2'
  | 3 => '3'
  | 4 => '4'
  | 5 => '5'
  | 6 => '6'
  | 7 => '7'
  | 8 => '8'
  | 9 => '9'
  | 10 => 'a'
  | 11 => 'b'
  | 12 => 'c'
  | 13 => 'd'
  | 14 => 'e'
  | _ => 'f'

/-- ECMA-262 `QuoteJSONString` escaping of one character. -/
def escChar (c : Char) : List Char :=
  if c = '"' then ['\\', '"']
  else if c = '\\' then ['\\', '\\']
  else if c = Char.ofNat 8 then ['\\', 'b']
  else if c = '\t' then ['\\', 't']
  else if c = '\n' then ['\\', 'n']
  else if c = Char.ofNat 12 then ['\\', 'f']
  else if c = Char.ofNat 13 then ['\\', 'r']
  else if c.toNat < 32 then ['\\', 'u', '0', '0', hexChar (c.toNat / 16), hexChar (c.toNat % 16)]
  else [c]

/-- Applies `QuoteJSONString` escaping to a character list. -/
def escStr : List Char → List Char
  | [] => []
  | c :: cs => escChar c ++ escStr cs

/-- The digit characters of an integer, with `-` sign when negative. -/
def intChars (n : ℤ) : List Char :=
  if n < 0 then '-' :: natDigits n.natAbs else natDigits n.natAbs

mutual

/-- The JSON text of a value, as `JSON.stringify` produces it. -/
def strVal : Json → List Char
  | .jnull => ['n', 'u', 'l', 'l']
  | .jbool true => ['t', 'r', 'u', 'e']
  | .jbool false => ['f', 'a', 'l', 's', 'e']
  | .jnum n => intChars n
  | .jstr s => '"' :: (escStr s.data ++ ['"'])
  | .jarr l => '[' :: strArrBody l
  | .jobj ms => '{' :: strObjBody ms

/-- Everything after the `[` of an array. -/
def strArrBody : List Json → List Char
  | [] => [']']
  | x :: xs => strVal x ++ strArrTail xs

/-- Remaining elements, comma-separated, through the closing `]`. -/
def strArrTail : List Json → List Char
  | [] => [']']
  | y :: ys => ',' :: (strVal y ++ strArrTail ys)

/-- Everything after the `{` of an object. -/
def strObjBody : List (String × Json) → List Char
  | [] => ['}']
  | m :: ms => strMember m ++ strObjTail ms

/-- Remaining members, comma-separated, through the closing `}`. -/
def strObjTail : List (String × Json) → List Char
  | [] => ['}']
  | m :: ms => ',' :: (strMember m ++ strObjTail ms)

/-- One `"key":value` member. -/
def strMember : String × Json → List Char
  | (k, v) => '"' :: (escStr k.data ++ '"' :: ':' :: strVal v)

end

/-- Hexadecimal digit value of a character. -/
def hexVal (c : Char) : Option ℕ :=
  if '0' ≤ c ∧ c ≤ '9' then some (c.toNat - 48)
  else if 'a' ≤ c ∧ c ≤ 'f' then some (c.toNat - 87)
  else if 'A' ≤ c ∧ c ≤ 'F' then some (c.toNat - 55)
  else none

/-- Parses the body of a JSON string literal (everything after the opening
quote, consuming the closing quote); returns the decoded characters and the
remaining input. -/
def parseStrBody (s : List Char) : Option (List Char × List Char) :=
  match s with
  | [] => none
  | c :: r =>
    if c = '"' then some ([], r)
    else if c = '\\' then
      match r with
      | [] => none
      | e :: t =>
        if e = '"' then (parseStrBody t).map (fun p => ('"' :: p.1, p.2))
        else if e = '\\' then (parseStrBody t).map (fun p => ('\\' :: p.1, p.2))
        else if e = '/' then (parseStrBody t).map (fun p => ('/' :: p.1, p.2))
        else if e = 'b' then (parseStrBody t).map (fun p => (Char.ofNat 8 :: p.1, p.2))
        else if e = 't' then (parseStrBody t).map (fun p => ('\t' :: p.1, p.2))
        else if e = 'n' then (parseStrBody t).map (fun p => ('\n' :: p.1, p.2))
        else if e = 'f' then (parseStrBody t).map (fun p => (Char.ofNat 12 :: p.1, p.2))
        else if e = 'r' then (parseStrBody t).map (fun p => (Char.ofNat 13 :: p.1, p.2))
        else if e = 'u' then
          match t with
          | h1 :: h2 :: h3 :: h4 :: t2 =>
            match hexVal h1, hexVal h2, hexVal h3, hexVal h4 with
            | some a, some b, some c2, some d =>
              (parseStrBody t2).map
                (fun p => (Char.ofNat (a * 4096 + b * 256 + c2 * 16 + d) :: p.1, p.2))
            | _, _, _, _ => none
          | _ => none
        else none
    else (parseStrBody r).map (fun p => (c :: p.1, p.2))
termination_by structural s

/-- Consumes a run of decimal digits, accumulating their value. -/
def parseDigitsAux : List Char → ℕ → ℕ × List Char
  | [], acc => (acc, [])
  | c :: r, acc =>
    if c.isDigit then parseDigitsAux r (acc * 10 + (c.toNat - 48)) else (acc, c :: r)

/-- Parses a nonempty run of decimal digits as a natural number. -/
def parseNumPos : List Char → Option (ℕ × List Char)
  | [] => none
  | c :: r => if c.isDigit then some (parseDigitsAux (c :: r) 0) else none

/-- Consumes exactly the expected characters from the front of the input. -/
def expectChars (pat : List Char) (s : List Char) : Option (List Char) :=
  match pat, s with
  | [], s => some s
  | p :: ps, c :: cs => if c = p then expectChars ps cs else none
  | _ :: _, [] => none

mutual

/-- Parses one JSON value; the fuel bounds the nesting depth. -/
def parseVal (fuel : ℕ) (s : List Char) : Option (Json × List Char) :=
  match fuel, s with
  | 0, _ => none
  | _, [] => none
  | fuel + 1, c :: r =>
    if c = 'n' then (expectChars ['u', 'l', 'l'] r).map (fun r2 => (.jnull, r2))
    else if c = 't' then (expectChars ['r', 'u', 'e'] r).map (fun r2 => (.jbool true, r2))
    else if c = 'f' then (expectChars ['a', 'l', 's', 'e'] r).map (fun r2 => (.jbool false, r2))
    else if c = '"' then (parseStrBody r).map (fun p => (.jstr ⟨p.1⟩, p.2))
    else if c = '[' then
      match r with
      | [] => none
      | d :: r2 =>
        if d = ']' then some (.jarr [], r2)
        else (parseArrItems fuel (d :: r2)).map (fun p => (.jarr p.1, p.2))
    else if c = '{' then
      match r with
      | [] => none
      | d :: r2 =>
        if d = '}' then some (.jobj [], r2)
        else (parseObjItems fuel (d :: r2)).map (fun p => (.jobj p.1, p.2))
    else if c = '-' then
      match parseNumPos r with
      | some (n, r2) => some (.jnum (-(n : ℤ)), r2)
      | none => none
    else if c.isDigit then
      match parseNumPos (c :: r) with
      | some (n, r2) => some (.jnum (n : ℤ), r2)
      | none => none
    else none

/-- Parses the nonempty element list of an array, consuming the closing `]`. -/
def parseArrItems (fuel : ℕ) (s : List Char) : Option (List Json × List Char) :=
  match fuel with
  | 0 => none
  | fuel + 1 =>
    match parseVal fuel s with
    | some (v, r) =>
      match r with
      | [] => none
      | d :: r2 =>
        if d = ']' then some ([v], r2)
        else if d = ',' then (parseArrItems fuel r2).map (fun p => (v :: p.1, p.2))
        else none
    | none => none

/-- Parses the nonempty member list of an object, consuming the closing `}`. -/
def parseObjItems (fuel : ℕ) (s : List Char) : Option (List (String × Json) × List Char) :=
  match fuel, s with
  | 0, _ => none
  | _ + 1, [] => none
  | fuel + 1, c :: r =>
    if c = '"' then
      match parseStrBody r with
      | some (k, r1) =>
        match r1 with
        | [] => none
        | d1 :: r2 =>
          if d1 = ':' then
            match parseVal fuel r2 with
            | some (v, r3) =>
              match r3 with
              | [] => none
              | d2 :: r4 =>
                if d2 = '}' then some ([(⟨k⟩, v)], r4)
                else if d2 = ',' then
                  (parseObjItems fuel r4).map (fun p => ((⟨k⟩, v) :: p.1, p.2))
                else none
            | none => none
          else none
      | none => none
    else none

end

/-- Embeds `createJsonLdScript` (src/index.ts): `JSON.stringify` of the given schema
object or schema array (`Array.isArray(schema) ? schema : schema` is the
identity on both branches). -/
def createJsonLdScript : Json ⊕ List Json → String
  | .inl schema => ⟨strVal schema⟩
  | .inr schemas => ⟨strVal (.jarr schemas)⟩

/-- Parses a complete JSON text. -/
def parseJson (s : String) : Option Json :=
  match parseVal (s.data.length + 1) s.data with
  | some (v, []) => some v
  | _ => none

/-- After a complete JSON value, the input may only resume with a separator
or closing bracket (or end); this is what keeps number parsing unambiguous. -/
def isDelim : List Char → Bool
  | [] => true
  | c :: _ => c = ',' || c = ']' || c = '}'

mutual

/-- Nesting measure of a value: the parser consumes one unit of fuel per
`parseVal`/`parseArrItems`/`parseObjItems` activation. -/
def sizeJ : Json → ℕ
  | .jnull => 1
  | .jbool _ => 1
  | .jnum _ => 1
  | .jstr _ => 1
  | .jarr l => 1 + sizeJItems l
  | .jobj ms => 1 + sizeJMembers ms

def sizeJItems : List Json → ℕ
  | [] => 0
  | x :: xs => 1 + sizeJ x + sizeJItems xs

def sizeJMembers : List (String × Json) → ℕ
  | [] => 0
  | (_, v) :: ms => 1 + sizeJ v + sizeJMembers ms

end

-- ============================================================================
-- Digit lemmas
-- ============================================================================

theorem digitChar_isDigit (n : ℕ) : (digitChar n).isDigit = true := by
  match n with
  | 0 | 1 | 2 | 3 | 4 | 5 | 6 | 7 | 8 | 9 => decide
  | n + 10 => rfl

theorem digitChar_toNat (n : ℕ) (h : n < 10) : (digitChar n).toNat - 48 = n := by
  match n with
  | 0 | 1 | 2 | 3 | 4 | 5 | 6 | 7 | 8 | 9 => decide
  | n + 10 => omega

theorem isDigit_ne {c d : Char} (hc : c.isDigit = true) (hd : d.isDigit = false) :
    c ≠ d := by
  intro h
  subst h
  rw [hc] at hd
  exact Bool.noConfusion hd

theorem natDigits_digits (n : ℕ) : ∀ c ∈ natDigits n, c.isDigit = true := by
  induction n using Nat.strong_induction_on with
  | _ n ih =>
    rw [natDigits]
    split
    · intro c hc
      rw [List.mem_singleton] at hc
      subst hc
      exact digitChar_isDigit _
    · intro c hc
      rw [List.mem_append] at hc
      rcases hc with hc | hc
      · exact ih (n / 10) (Nat.div_lt_self (by omega) (by omega)) c hc
      · rw [List.mem_singleton] at hc
        subst hc
        exact digitChar_isDigit _

theorem natDigits_head (n : ℕ) :
    ∃ c t, natDigits n = c :: t ∧ c.isDigit = true := by
  induction n using Nat.strong_induction_on with
  | _ n ih =>
    rw [natDigits]
    split
    · exact ⟨digitChar n, [], rfl, digitChar_isDigit n⟩
    · obtain ⟨c, t, heq, hdig⟩ := ih (n / 10) (Nat.div_lt_self (by omega) (by omega))
      exact ⟨c, t ++ [digitChar (n % 10)], by rw [heq]; rfl, hdig⟩

theorem parseDigitsAux_natDigits (n : ℕ) :
    ∀ acc rest, parseDigitsAux (natDigits n ++ rest) acc =
      parseDigitsAux rest (acc * 10 ^ (natDigits n).length + n) := by
  induction n using Nat.strong_induction_on with
  | _ n ih =>
    intro acc rest
    rw [natDigits]
    split
    · rename_i h
      simp only [List.singleton_append, parseDigitsAux, digitChar_isDigit, if_true,
        List.length_singleton, pow_one, List.nil_append]
      rw [digitChar_toNat n h]
      rfl
    · rename_i h
      rw [List.append_assoc, List.singleton_append,
        ih (n / 10) (Nat.div_lt_self (by omega) (by omega)),
        parseDigitsAux]
      simp only [digitChar_isDigit, if_true]
      rw [digitChar_toNat (n % 10) (Nat.mod_lt n (by omega))]
      have hlen : (natDigits (n / 10) ++ [digitChar (n % 10)]).length
          = (natDigits (n / 10)).length + 1 := by simp
      rw [hlen, pow_succ]
      congr 1
      have := Nat.div_add_mod n 10
      ring_nf
      omega

theorem parseDigitsAux_delim (rest : List Char) (acc : ℕ) (h : isDelim rest = true) :
    parseDigitsAux rest acc = (acc, rest) := by
  match rest with
  | [] => rfl
  | c :: r =>
    simp only [isDelim, Bool.or_eq_true, decide_eq_true_eq] at h
    rcases h with (h | h) | h <;> subst h <;> simp [parseDigitsAux]

theorem parseNumPos_natDigits (n : ℕ) (rest : List Char) (h : isDelim rest = true) :
    parseNumPos (natDigits n ++ rest) = some (n, rest) := by
  obtain ⟨c, t, heq, hdig⟩ := natDigits_head n
  rw [heq, List.cons_append, parseNumPos, if_pos hdig, ← List.cons_append, ← heq,
    parseDigitsAux_natDigits, parseDigitsAux_delim _ _ h]
  simp

-- ============================================================================
-- String-escaping round trip
-- ============================================================================

theorem hexVal_hexChar (n : ℕ) (h : n < 16) : hexVal (hexChar n) = some n := by
  interval_cases n <;> decide

theorem parseStrBody_escStr (s : List Char) :
    ∀ rest, parseStrBody (escStr s ++ '"' :: rest) = some (s, rest) := by
  induction s with
  | nil =>
    intro rest
    show parseStrBody ('"' :: rest) = some ([], rest)
    rw [parseStrBody.eq_def]
    simp
  | cons c cs ih =>
    intro rest
    show parseStrBody ((escChar c ++ escStr cs) ++ '"' :: rest) = _
    rw [List.append_assoc]
    unfold escChar
    by_cases h1 : c = '"'
    · subst h1
      rw [if_pos rfl, List.cons_append, List.cons_append, List.nil_append,
        parseStrBody.eq_def]
      simp [ih]
    rw [if_neg h1]
    by_cases h2 : c = '\\'
    · subst h2
      rw [if_pos rfl, List.cons_append, List.cons_append, List.nil_append,
        parseStrBody.eq_def]
      simp [ih]
    rw [if_neg h2]
    by_cases h3 : c = Char.ofNat 8
    · subst h3
      rw [if_pos rfl, List.cons_append, List.cons_append, List.nil_append,
        parseStrBody.eq_def]
      simp [ih]
    rw [if_neg h3]
    by_cases h4 : c = '\t'
    · subst h4
      rw [if_pos rfl, List.cons_append, List.cons_append, List.nil_append,
        parseStrBody.eq_def]
      simp [ih]
    rw [if_neg h4]
    by_cases h5 : c = '\n'
    · subst h5
      rw [if_pos rfl, List.cons_append, List.cons_append, List.nil_append,
        parseStrBody.eq_def]
      simp [ih]
    rw [if_neg h5]
    by_cases h6 : c = Char.ofNat 12
    · subst h6
      rw [if_pos rfl, List.cons_append, List.cons_append, List.nil_append,
        parseStrBody.eq_def]
      simp [ih]
    rw [if_neg h6]
    by_cases h7 : c = Char.ofNat 13
    · subst h7
      rw [if_pos rfl, List.cons_append, List.cons_append, List.nil_append,
        parseStrBody.eq_def]
      simp [ih]
    rw [if_neg h7]
    by_cases h8 : c.toNat < 32
    · rw [if_pos h8]
      have ha : hexVal (hexChar (c.toNat / 16)) = some (c.toNat / 16) :=
        hexVal_hexChar _ (by omega)
      have hb : hexVal (hexChar (c.toNat % 16)) = some (c.toNat % 16) :=
        hexVal_hexChar _ (by omega)
      have h0 : hexVal '0' = some 0 := by decide
      simp only [List.cons_append, List.nil_append]
      rw [parseStrBody.eq_def]
      simp only [reduceIte, ha, hb, h0, ih]
      rw [show (0 : ℕ) * 4096 + 0 * 256 + c.toNat / 16 * 16 + c.toNat % 16 = c.toNat by
        omega]
      simp [Char.ofNat_toNat]
    · rw [if_neg h8, List.singleton_append, parseStrBody.eq_def]
      simp [h1, h2, ih]

-- ============================================================================
-- The `JSON.parse ∘ JSON.stringify` round trip
-- ============================================================================


theorem one_le_sizeJ (v : Json) : 1 ≤ sizeJ v := by
  cases v <;> simp [sizeJ]

/-- Every serialized value starts with a character other than `]` and `}`. -/
theorem strVal_head (v : Json) :
    ∃ c t, strVal v = c :: t ∧ c ≠ ']' ∧ c ≠ '}' := by
  cases v with
  | jnull => exact ⟨'n', _, rfl, by decide, by decide⟩
  | jbool b =>
    cases b
    · exact ⟨'f', _, rfl, by decide, by decide⟩
    · exact ⟨'t', _, rfl, by decide, by decide⟩
  | jnum n =>
    show ∃ c t, intChars n = c :: t ∧ _
    unfold intChars
    split
    · exact ⟨'-', _, rfl, by decide, by decide⟩
    · obtain ⟨c, t, heq, hdig⟩ := natDigits_head n.natAbs
      exact ⟨c, t, heq, isDigit_ne hdig (by decide), isDigit_ne hdig (by decide)⟩
  | jstr s => exact ⟨'"', _, rfl, by decide, by decide⟩
  | jarr l => exact ⟨'[', _, rfl, by decide, by decide⟩
  | jobj ms => exact ⟨'{', _, rfl, by decide, by decide⟩

theorem isDelim_arrTail (xs : List Json) (rest : List Char) :
    isDelim (strArrTail xs ++ rest) = true := by
  cases xs <;> simp [strArrTail, isDelim]

theorem isDelim_objTail (ms : List (String × Json)) (rest : List Char) :
    isDelim (strObjTail ms ++ rest) = true := by
  cases ms <;> simp [strObjTail, isDelim]

theorem expectChars_ull (rest : List Char) :
    expectChars ['u', 'l', 'l'] ('u' :: 'l' :: 'l' :: rest) = some rest := by
  simp [expectChars]

theorem expectChars_rue (rest : List Char) :
    expectChars ['r', 'u', 'e'] ('r' :: 'u' :: 'e' :: rest) = some rest := by
  simp [expectChars]

theorem expectChars_alse (rest : List Char) :
    expectChars ['a', 'l', 's', 'e'] ('a' :: 'l' :: 's' :: 'e' :: rest) = some rest := by
  simp [expectChars]

/-- The parser inverts the serializer: one statement per parsing function,
proved together by induction on the fuel. -/
theorem roundTrip (fuel : ℕ) :
    (∀ v rest, sizeJ v ≤ fuel → isDelim rest = true →
      parseVal fuel (strVal v ++ rest) = some (v, rest)) ∧
    (∀ x xs rest, sizeJItems (x :: xs) ≤ fuel → isDelim rest = true →
      parseArrItems fuel ((strVal x ++ strArrTail xs) ++ rest) = some (x :: xs, rest)) ∧
    (∀ k v ms rest, sizeJMembers ((k, v) :: ms) ≤ fuel → isDelim rest = true →
      parseObjItems fuel ((strMember (k, v) ++ strObjTail ms) ++ rest)
        = some ((k, v) :: ms, rest)) := by
  induction fuel with
  | zero =>
    refine ⟨?_, ?_, ?_⟩
    · intro v rest hsz _
      have := one_le_sizeJ v
      omega
    · intro x xs rest hsz _
      simp [sizeJItems] at hsz
    · intro k v ms rest hsz _
      simp [sizeJMembers] at hsz
  | succ f ih =>
    obtain ⟨ihV, ihA, ihO⟩ := ih
    refine ⟨?_, ?_, ?_⟩
    · intro v rest hsz hdel
      cases v with
      | jnull =>
        rw [strVal, parseVal.eq_def]
        simp [expectChars_ull]
      | jbool b =>
        cases b
        · rw [strVal, parseVal.eq_def]
          simp [expectChars_alse]
        · rw [strVal, parseVal.eq_def]
          simp [expectChars_rue]
      | jnum n =>
        rw [strVal]
        unfold intChars
        split
        · rename_i hn
          rw [parseVal.eq_def]
          simp only [List.cons_append]
          simp [parseNumPos_natDigits _ _ hdel]
          rw [abs_of_neg hn, neg_neg]
        · rename_i hn
          obtain ⟨c, t, heq, hdig⟩ := natDigits_head n.natAbs
          have h1 : ¬ c = 'n' := isDigit_ne hdig (by decide)
          have h2 : ¬ c = 't' := isDigit_ne hdig (by decide)
          have h3 : ¬ c = 'f' := isDigit_ne hdig (by decide)
          have h4 : ¬ c = '"' := isDigit_ne hdig (by decide)
          have h5 : ¬ c = '[' := isDigit_ne hdig (by decide)
          have h6 : ¬ c = '{' := isDigit_ne hdig (by decide)
          have h7 : ¬ c = '-' := isDigit_ne hdig (by decide)
          rw [heq, parseVal.eq_def]
          simp only [List.cons_append]
          rw [if_neg h1, if_neg h2, if_neg h3, if_neg h4, if_neg h5, if_neg h6,
            if_neg h7, if_pos hdig, ← List.cons_append, ← heq,
            parseNumPos_natDigits _ _ hdel]
          simp [Int.natAbs_of_nonneg (not_lt.mp hn)]
      | jstr s =>
        rw [strVal, parseVal.eq_def]
        simp only [List.cons_append, List.append_assoc, List.singleton_append]
        simp [parseStrBody_escStr s.data]
      | jarr l =>
        cases l with
        | nil =>
          rw [strVal, strArrBody, parseVal.eq_def]
          simp
        | cons x xs =>
          have hsz2 : sizeJItems (x :: xs) ≤ f := by
            simp [sizeJ] at hsz
            omega
          have hpa := ihA x xs rest hsz2 hdel
          obtain ⟨c, t, heq, hne1, _⟩ := strVal_head x
          rw [strVal, strArrBody, parseVal.eq_def]
          simp only [List.cons_append]
          rw [heq] at hpa ⊢
          simp only [List.cons_append, List.append_assoc] at hpa ⊢
          simp [hne1, hpa]
      | jobj ms =>
        cases ms with
        | nil =>
          rw [strVal, strObjBody, parseVal.eq_def]
          simp
        | cons m ms' =>
          obtain ⟨k, v⟩ := m
          have hsz2 : sizeJMembers ((k, v) :: ms') ≤ f := by
            simp [sizeJ] at hsz
            omega
          have hpo := ihO k v ms' rest hsz2 hdel
          rw [strVal, strObjBody, parseVal.eq_def]
          rw [strMember] at hpo ⊢
          simp only [List.cons_append, List.append_assoc] at hpo ⊢
          simp [hpo]
    · intro x xs rest hsz hdel
      have hszx : sizeJ x ≤ f := by
        simp [sizeJItems] at hsz
        omega
      have hV := ihV x (strArrTail xs ++ rest) hszx (isDelim_arrTail xs rest)
      rw [parseArrItems.eq_def]
      simp only [List.append_assoc]
      cases xs with
      | nil =>
        rw [strArrTail] at hV ⊢
        simp only [List.singleton_append] at hV ⊢
        simp [hV]
      | cons y ys =>
        have hsz2 : sizeJItems (y :: ys) ≤ f := by
          have := one_le_sizeJ x
          simp [sizeJItems] at hsz ⊢
          omega
        have hpa := ihA y ys rest hsz2 hdel
        rw [strArrTail] at hV ⊢
        simp only [List.cons_append, List.append_assoc] at hV hpa ⊢
        simp [hV, hpa]
    · intro k v ms rest hsz hdel
      have hszv : sizeJ v ≤ f := by
        simp [sizeJMembers] at hsz
        omega
      have hV := ihV v (strObjTail ms ++ rest) hszv (isDelim_objTail ms rest)
      rw [parseObjItems.eq_def, strMember]
      simp only [List.cons_append, List.append_assoc, List.singleton_append]
      rw [show escStr k.data ++ '"' :: ':' :: (strVal v ++ (strObjTail ms ++ rest))
          = escStr k.data ++ '"' :: (':' :: (strVal v ++ (strObjTail ms ++ rest))) from rfl,
        parseStrBody_escStr k.data]
      cases ms with
      | nil =>
        rw [strObjTail] at hV ⊢
        simp only [List.singleton_append] at hV ⊢
        simp [hV]
      | cons m ms' =>
        obtain ⟨k2, v2⟩ := m
        have hsz2 : sizeJMembers ((k2, v2) :: ms') ≤ f := by
          have := one_le_sizeJ v
          simp [sizeJMembers] at hsz ⊢
          omega
        have hpo := ihO k2 v2 ms' rest hsz2 hdel
        rw [strObjTail] at hV ⊢
        simp only [List.cons_append, List.append_assoc] at hV hpo ⊢
        simp [hV, hpo]

theorem natDigits_length_pos (n : ℕ) : 1 ≤ (natDigits n).length := by
  obtain ⟨c, t, heq, _⟩ := natDigits_head n
  rw [heq]
  simp

theorem json_sizeOf_pos (v : Json) : 0 < sizeOf v := by
  cases v <;> simp_arith

theorem list_sizeOf_pos {α : Type} [SizeOf α] (l : List α) : 0 < sizeOf l := by
  cases l <;> simp_arith

/-- The fuel `parseJson` supplies (input length + 1) covers the nesting
measure of the serialized value. -/
theorem sizeJ_le_length (n : ℕ) :
    (∀ v : Json, sizeOf v ≤ n → sizeJ v ≤ (strVal v).length) ∧
    (∀ l : List Json, sizeOf l ≤ n → 1 + sizeJItems l ≤ (strArrTail l).length) ∧
    (∀ ms : List (String × Json), sizeOf ms ≤ n →
      1 + sizeJMembers ms ≤ (strObjTail ms).length) := by
  induction n with
  | zero =>
    refine ⟨?_, ?_, ?_⟩
    · intro v hv
      have := json_sizeOf_pos v
      omega
    · intro l hl
      have := list_sizeOf_pos l
      omega
    · intro ms hms
      have := list_sizeOf_pos ms
      omega
  | succ m ih =>
    obtain ⟨ihV, ihA, ihO⟩ := ih
    refine ⟨?_, ?_, ?_⟩
    · intro v hv
      cases v with
      | jnull => simp [sizeJ, strVal]
      | jbool b => cases b <;> simp [sizeJ, strVal]
      | jnum n =>
        rw [strVal]
        unfold intChars
        have := natDigits_length_pos n.natAbs
        split <;> (simp [sizeJ]; try omega)
      | jstr s => simp [sizeJ, strVal]
      | jarr l =>
        cases l with
        | nil => simp [sizeJ, sizeJItems, strVal, strArrBody]
        | cons x xs =>
          have hx : sizeOf x ≤ m := by simp_arith at hv; omega
          have hxs : sizeOf xs ≤ m := by simp_arith at hv; omega
          have h1 := ihV x hx
          have h2 := ihA xs hxs
          rw [strVal, strArrBody]
          simp only [sizeJ, sizeJItems, List.length_cons, List.length_append]
          omega
      | jobj ms =>
        cases ms with
        | nil => simp [sizeJ, sizeJMembers, strVal, strObjBody]
        | cons p ms' =>
          obtain ⟨k, v⟩ := p
          have hv2 : sizeOf v ≤ m := by simp_arith at hv; omega
          have hms : sizeOf ms' ≤ m := by simp_arith at hv; omega
          have h1 := ihV v hv2
          have h2 := ihO ms' hms
          rw [strVal, strObjBody, strMember]
          simp only [sizeJ, sizeJMembers, List.length_cons, List.length_append]
          omega
    · intro l hl
      cases l with
      | nil => simp [sizeJItems, strArrTail]
      | cons y ys =>
        have hy : sizeOf y ≤ m := by simp_arith at hl; omega
        have hys : sizeOf ys ≤ m := by simp_arith at hl; omega
        have h1 := ihV y hy
        have h2 := ihA ys hys
        rw [strArrTail]
        simp only [sizeJItems, List.length_cons, List.length_append]
        omega
    · intro ms hms
      cases ms with
      | nil => simp [sizeJMembers, strObjTail]
      | cons p ms' =>
        obtain ⟨k, v⟩ := p
        have hv2 : sizeOf v ≤ m := by simp_arith at hms; omega
        have hms' : sizeOf ms' ≤ m := by simp_arith at hms; omega
        have h1 := ihV v hv2
        have h2 := ihO ms' hms'
        rw [strObjTail, strMember]
        simp only [sizeJMembers, List.length_cons, List.length_append]
        omega

-- ============================================================================
-- Property-lookup lemmas for the builder records
-- ============================================================================

theorem getField_append_not_mem (l1 l2 : JsObject) (k : String)
    (h : ∀ p ∈ l1, p.1 ≠ k) : getField (l1 ++ l2) k = getField l2 k := by
  induction l1 with
  | nil => rfl
  | cons p l1 ih =>
    obtain ⟨k1, v1⟩ := p
    rw [List.cons_append, getField, if_neg (h (k1, v1) (by simp))]
    exact ih (fun q hq => h q (by simp [hq]))

theorem getField_none (l : JsObject) (k : String)
    (h : ∀ p ∈ l, p.1 ≠ k) : getField l k = none := by
  induction l with
  | nil => rfl
  | cons p l ih =>
    obtain ⟨k1, v1⟩ := p
    rw [getField, if_neg (h (k1, v1) (by simp))]
    exact ih (fun q hq => h q (by simp [hq]))

theorem keys_optStrField (key : String) (v : Option String) :
    ∀ p ∈ optStrField key v, p.1 = key := by
  intro p hp
  match v with
  | none => simp [optStrField] at hp
  | some s =>
    simp only [optStrField] at hp
    split at hp
    · simp at hp
    · rw [List.mem_singleton] at hp
      rw [hp]

theorem getField_skip_optStr (key k : String) (v : Option String) (l2 : JsObject)
    (h : key ≠ k) : getField (optStrField key v ++ l2) k = getField l2 k :=
  getField_append_not_mem _ _ _ (fun p hp => by rw [keys_optStrField key v p hp]; exact h)

theorem keys_imageField (img : Option (String ⊕ List String)) :
    ∀ p ∈ imageField img, p.1 = "image" := by
  intro p hp
  match img with
  | none => simp [imageField] at hp
  | some (.inr l) =>
    simp only [imageField] at hp
    rw [List.mem_singleton] at hp
    rw [hp]
  | some (.inl s) =>
    simp only [imageField] at hp
    split at hp
    · simp at hp
    · rw [List.mem_singleton] at hp
      rw [hp]

theorem keys_brandField (b : Option String) :
    ∀ p ∈ brandField b, p.1 = "brand" := by
  intro p hp
  match b with
  | none => simp [brandField] at hp
  | some s =>
    simp only [brandField] at hp
    split at hp
    · simp at hp
    · rw [List.mem_singleton] at hp
      rw [hp]

theorem keys_offersField (pr : Option ℚ) (cur : Option String) (av : Option Availability) :
    ∀ p ∈ offersField pr cur av, p.1 = "offers" := by
  intro p hp
  match pr, cur with
  | none, _ => simp [offersField] at hp
  | some _, none => simp [offersField] at hp
  | some q, some c =>
    simp only [offersField] at hp
    split at hp
    · simp at hp
    · rw [List.mem_singleton] at hp
      rw [hp]

theorem keys_sameAsField (s : Option (List String)) :
    ∀ p ∈ sameAsField s, p.1 = "sameAs" := by
  intro p hp
  match s with
  | none => simp [sameAsField] at hp
  | some urls =>
    simp only [sameAsField] at hp
    split at hp
    · rw [List.mem_singleton] at hp
      rw [hp]
    · simp at hp

theorem keys_areaServedField (a : Option ServiceArea) :
    ∀ p ∈ areaServedField a, p.1 = "areaServed" := by
  intro p hp
  match a with
  | none => simp [areaServedField] at hp
  | some area =>
    simp only [areaServedField] at hp
    split at hp
    · rw [List.mem_singleton] at hp
      rw [hp]
    · simp at hp

theorem keys_openingHoursField (oh : Option OpeningHours) :
    ∀ p ∈ openingHoursField oh,
      p.1 = "openingHours" ∨ p.1 = "openingHoursSpecification" := by
  intro p hp
  match oh with
  | none => simp [openingHoursField] at hp
  | some spec =>
    simp only [openingHoursField, openingHoursFields] at hp
    split at hp
    · rw [List.mem_singleton] at hp
      rw [hp]
      exact Or.inl rfl
    · split at hp
      · split at hp
        · simp at hp
        · split at hp
          · simp at hp
          · rw [List.mem_singleton] at hp
            rw [hp]
            exact Or.inr rfl
      · simp at hp

/-- In `createProductSchema`, the `offers` key can only come from the
`offers` segment. -/
theorem product_offers_lookup (o : ProductSchemaOptions) :
    getField (createProductSchema o) "offers"
      = getField (offersField o.price o.priceCurrency o.availability) "offers" := by
  rw [createProductSchema]
  simp only [List.append_assoc, List.cons_append, List.nil_append]
  rw [getField, if_neg (by decide), getField, if_neg (by decide),
    getField, if_neg (by decide), getField, if_neg (by decide),
    getField_append_not_mem _ _ _
      (fun p hp => by rw [keys_imageField o.image p hp]; decide),
    getField_skip_optStr _ _ _ _ (by decide),
    getField_append_not_mem _ _ _
      (fun p hp => by rw [keys_brandField o.brand p hp]; decide),
    getField_skip_optStr _ _ _ _ (by decide)]

/-- In `createOrganizationSchema`, the `areaServed` key can only come from
the service-area segment. -/
theorem org_areaServed_lookup (o : OrganizationSchemaOptions) :
    getField (createOrganizationSchema o) "areaServed"
      = (match o.areaServed with
         | some a => areaServedValue a
         | none => none) := by
  rw [createOrganizationSchema]
  simp only [List.append_assoc, List.cons_append, List.nil_append]
  rw [getField, if_neg (by decide), getField, if_neg (by decide),
    getField, if_neg (by decide), getField, if_neg (by decide),
    getField_skip_optStr _ _ _ _ (by decide),
    getField_skip_optStr _ _ _ _ (by decide),
    getField_skip_optStr _ _ _ _ (by decide),
    getField_skip_optStr _ _ _ _ (by decide),
    getField_skip_optStr _ _ _ _ (by decide),
    getField_skip_optStr _ _ _ _ (by decide),
    getField_skip_optStr _ _ _ _ (by decide),
    getField_append_not_mem _ _ _
      (fun p hp => by rw [keys_sameAsField o.organization.sameAs p hp]; decide)]
  cases o.areaServed with
  | none =>
    show getField (areaServedField none ++ _) _ = none
    rw [areaServedField, List.nil_append]
    exact getField_none _ _ (fun p hp => by
      rcases keys_openingHoursField o.openingHoursSpecification p hp with h | h <;>
        (rw [h]; decide))
  | some a =>
    show getField (areaServedField (some a) ++ _) _ = areaServedValue a
    rw [areaServedField]
    cases hv : areaServedValue a with
    | some v => rfl
    | none =>
      show getField ([] ++ _) _ = none
      rw [List.nil_append]
      exact getField_none _ _ (fun p hp => by
        rcases keys_openingHoursField o.openingHoursSpecification p hp with h | h <;>
          (rw [h]; decide))

/-- In `createOrganizationSchema`, the two opening-hours keys can only come
from the opening-hours segment. -/
theorem org_openingHours_lookup (o : OrganizationSchemaOptions) (k : String)
    (hk : k = "openingHours" ∨ k = "openingHoursSpecification") :
    getField (createOrganizationSchema o) k
      = getField (openingHoursField o.openingHoursSpecification) k := by
  have hne : ∀ s : String, s = "@context" ∨ s = "@type" ∨ s = "name" ∨ s = "url" →
      ¬ s = k := by
    intro s hs
    rcases hk with rfl | rfl <;> rcases hs with rfl | rfl | rfl | rfl <;> decide
  rw [createOrganizationSchema]
  simp only [List.append_assoc, List.cons_append, List.nil_append]
  rw [getField, if_neg (hne _ (Or.inl rfl)),
    getField, if_neg (hne _ (Or.inr (Or.inl rfl))),
    getField, if_neg (hne _ (Or.inr (Or.inr (Or.inl rfl)))),
    getField, if_neg (hne _ (Or.inr (Or.inr (Or.inr rfl)))),
    getField_skip_optStr _ _ _ _ (by rcases hk with rfl | rfl <;> decide),
    getField_skip_optStr _ _ _ _ (by rcases hk with rfl | rfl <;> decide),
    getField_skip_optStr _ _ _ _ (by rcases hk with rfl | rfl <;> decide),
    getField_skip_optStr _ _ _ _ (by rcases hk with rfl | rfl <;> decide),
    getField_skip_optStr _ _ _ _ (by rcases hk with rfl | rfl <;> decide),
    getField_skip_optStr _ _ _ _ (by rcases hk with rfl | rfl <;> decide),
    getField_skip_optStr _ _ _ _ (by rcases hk with rfl | rfl <;> decide),
    getField_append_not_mem _ _ _
      (fun p hp => by
        rw [keys_sameAsField o.organization.sameAs p hp]
        rcases hk with rfl | rfl <;> decide),
    getField_append_not_mem _ _ _
      (fun p hp => by
        rw [keys_areaServedField o.areaServed p hp]
        rcases hk with rfl | rfl <;> decide)]

/-- Parsing inverts serialization: `JSON.parse` of `JSON.stringify`. -/
theorem parseJson_stringify (v : Json) : parseJson ⟨strVal v⟩ = some v := by
  have hsz : sizeJ v ≤ (strVal v).length + 1 :=
    le_trans ((sizeJ_le_length (sizeOf v)).1 v le_rfl) (Nat.le_succ _)
  have h := (roundTrip ((strVal v).length + 1)).1 v [] hsz rfl
  rw [List.append_nil] at h
  show (match parseVal ((strVal v).length + 1) (strVal v) with
    | some (v, []) => some v
    | _ => none) = some v
  rw [h]

theorem mapWithIndex_length {α β : Type} (f : α → ℕ → β) (l : List α) (s : ℕ) :
    (mapWithIndex f l s).length = l.length := by
  induction l generalizing s with
  | nil => rfl
  | cons a l ih => simp [mapWithIndex, ih]

theorem mapWithIndex_getElem? {α β : Type} (f : α → ℕ → β) (l : List α) (s i : ℕ) :
    (mapWithIndex f l s)[i]? = (l[i]?).map (fun a => f a (s + i)) := by
  induction l generalizing s i with
  | nil => simp [mapWithIndex]
  | cons a l ih =>
    cases i with
    | zero => simp [mapWithIndex]
    | succ j =>
      rw [show s + (j + 1) = (s + 1) + j by omega]
      simp only [mapWithIndex, List.getElem?_cons_succ]
      exact ih (s + 1) j

-- ============================================================================
-- The claims
-- ============================================================================

/-- C9: every builder's output record carries `"@context": "https://schema.org"`
and a string-valued `"@type"` equal to that builder's single fixed type tag —
for the Organization builder, the caller-supplied override defaulting to
"LocalBusiness". -/
theorem claim9_context_and_type :
    (∀ o : OrganizationSchemaOptions,
      getField (createOrganizationSchema o) "@context" = some (.vstr "https://schema.org") ∧
      getField (createOrganizationSchema o) "@type"
        = some (.vstr (o.type.getD "LocalBusiness"))) ∧
    (∀ o : ServiceSchemaOptions,
      getField (createServiceSchema o) "@context" = some (.vstr "https://schema.org") ∧
      getField (createServiceSchema o) "@type" = some (.vstr "Service")) ∧
    (∀ faqs : List FAQItem,
      getField (createFAQSchema faqs) "@context" = some (.vstr "https://schema.org") ∧
      getField (createFAQSchema faqs) "@type" = some (.vstr "FAQPage")) ∧
    (∀ items : List BreadcrumbItem,
      getField (createBreadcrumbSchema items) "@context" = some (.vstr "https://schema.org") ∧
      getField (createBreadcrumbSchema items) "@type" = some (.vstr "BreadcrumbList")) ∧
    (∀ o : ReviewSchemaOptions,
      getField (createReviewSchema o) "@context" = some (.vstr "https://schema.org") ∧
      getField (createReviewSchema o) "@type" = some (.vstr "LocalBusiness")) ∧
    (∀ o : ProductSchemaOptions,
      getField (createProductSchema o) "@context" = some (.vstr "https://schema.org") ∧
      getField (createProductSchema o) "@type" = some (.vstr "Product")) ∧
    (∀ o : ArticleSchemaOptions,
      getField (createArticleSchema o) "@context" = some (.vstr "https://schema.org") ∧
      getField (createArticleSchema o) "@type" = some (.vstr "Article")) ∧
    (∀ o : EventSchemaOptions,
      getField (createEventSchema o) "@context" = some (.vstr "https://schema.org") ∧
      getField (createEventSchema o) "@type" = some (.vstr "Event")) :=
  ⟨fun _ => ⟨rfl, rfl⟩, fun _ => ⟨rfl, rfl⟩, fun _ => ⟨rfl, rfl⟩, fun _ => ⟨rfl, rfl⟩,
   fun _ => ⟨rfl, rfl⟩, fun _ => ⟨rfl, rfl⟩, fun _ => ⟨rfl, rfl⟩, fun _ => ⟨rfl, rfl⟩⟩

/-- C10: the record returned by `createReviewSchema` has exactly the top-level
keys `@context`, `@type`, `name`, `aggregateRating`, `review`; any other key —
in particular the organization's `url` and its other optional fields — is
absent. -/
theorem claim10_review_keys (o : ReviewSchemaOptions) :
    (createReviewSchema o).map Prod.fst
      = ["@context", "@type", "name", "aggregateRating", "review"] ∧
    ∀ k, k ∉ (["@context", "@type", "name", "aggregateRating", "review"] : List String) →
      getField (createReviewSchema o) k = none := by
  refine ⟨rfl, fun k hk => ?_⟩
  refine getField_none _ _ (fun p hp => ?_)
  have hmem : p.1 ∈ (createReviewSchema o).map Prod.fst := List.mem_map_of_mem _ hp
  rw [show (createReviewSchema o).map Prod.fst
    = ["@context", "@type", "name", "aggregateRating", "review"] from rfl] at hmem
  intro heq
  rw [heq] at hmem
  exact hk hmem

/-- C7: `createBreadcrumbSchema` yields a "BreadcrumbList" whose
`itemListElement` has the input's length and whose i-th entry is a "ListItem"
with 1-based `position` i+1 carrying the i-th input's name and url; empty
input yields an empty list. -/
theorem claim7_breadcrumb_positions (items : List BreadcrumbItem) :
    getField (createBreadcrumbSchema items) "@type" = some (.vstr "BreadcrumbList") ∧
    ∃ es, getField (createBreadcrumbSchema items) "itemListElement" = some (.varr es) ∧
      es.length = items.length ∧
      ∀ i : ℕ, es[i]? = (items[i]?).map (fun item =>
        Value.vobj [("@type", .vstr "ListItem"), ("position", .vnum ((i : ℚ) + 1)),
          ("name", .vstr item.name), ("item", .vstr item.url)]) := by
  refine ⟨rfl, mapWithIndex _ items 0, rfl, mapWithIndex_length _ items 0, fun i => ?_⟩
  rw [mapWithIndex_getElem?]
  simp

/-- C8: with `bestRating`/`worstRating` omitted, the aggregate defaults to
bounds 5 and 1; `aggregateRating` is always emitted (whatever the review
count), and every entry of the `review` list nests a "Rating" record with the
same bounds as the aggregate. -/
theorem claim8_review_defaults (o : ReviewSchemaOptions) :
    (o.bestRating = none → o.worstRating = none →
      getField (createReviewSchema o) "aggregateRating" = some (.vobj
        [("@type", .vstr "AggregateRating"), ("ratingValue", .vnum o.ratingValue),
         ("reviewCount", .vnum o.reviewCount), ("bestRating", .vnum 5),
         ("worstRating", .vnum 1)])) ∧
    (getField (createReviewSchema o) "aggregateRating" = some (.vobj
        [("@type", .vstr "AggregateRating"), ("ratingValue", .vnum o.ratingValue),
         ("reviewCount", .vnum o.reviewCount),
         ("bestRating", .vnum (o.bestRating.getD 5)),
         ("worstRating", .vnum (o.worstRating.getD 1))])) ∧
    ∃ rs, getField (createReviewSchema o) "review" = some (.varr rs) ∧
      ∀ i : ℕ, rs[i]? = (o.reviews[i]?).map (fun review => Value.vobj
        [("@type", .vstr "Review"),
         ("author", .vobj [("@type", .vstr "Person"), ("name", .vstr review.author)]),
         ("reviewBody", .vstr review.reviewBody),
         ("reviewRating", .vobj [("@type", .vstr "Rating"),
           ("ratingValue", .vnum review.reviewRating),
           ("bestRating", .vnum (o.bestRating.getD 5)),
           ("worstRating", .vnum (o.worstRating.getD 1))]),
         ("datePublished", .vstr review.datePublished)]) := by
  refine ⟨fun hb hw => ?_, rfl, o.reviews.map _, rfl, fun i => ?_⟩
  · simp only [createReviewSchema, hb, hw]
    rfl
  · rw [List.getElem?_map]

/-- C8 witness: a concrete review input with omitted bounds and review count
0 gets an aggregate with bestRating 5 and worstRating 1. -/
theorem claim8_witness :
    getField (createReviewSchema
      { organization := { name := "Biz", url := "https://b.example" },
        reviewCount := 0, ratingValue := 0, reviews := [] }) "aggregateRating"
      = some (.vobj
        [("@type", .vstr "AggregateRating"), ("ratingValue", .vnum 0),
         ("reviewCount", .vnum 0), ("bestRating", .vnum 5),
         ("worstRating", .vnum 1)]) :=
  (claim8_review_defaults _).1 rfl rfl

/-- C10 witness: the organization's `url` (and e.g. `telephone`) never
appears in a review record even when supplied. -/
theorem claim10_witness :
    getField (createReviewSchema
      { organization :=
          { name := "Biz", url := "https://b.example",
            telephone := some "+1-555", description := some "desc" },
        reviewCount := 3, ratingValue := 4, reviews := [] }) "url" = none ∧
    getField (createReviewSchema
      { organization :=
          { name := "Biz", url := "https://b.example",
            telephone := some "+1-555", description := some "desc" },
        reviewCount := 3, ratingValue := 4, reviews := [] }) "telephone" = none :=
  ⟨(claim10_review_keys _).2 "url" (by decide),
   (claim10_review_keys _).2 "telephone" (by decide)⟩

theorem dot_not_mem_natDigits (n : ℕ) : '.' ∉ natDigits n := by
  intro h
  have := natDigits_digits n '.' h
  exact absurd this (by decide)

theorem natDigits_eval {n : ℕ} (h : n < 10) : natDigits n = [digitChar n] := by
  rw [natDigits]
  exact dif_pos h

theorem natDigits_pow10 (k : ℕ) : natDigits (10 ^ k) = '1' :: List.replicate k '0' := by
  induction k with
  | zero =>
    rw [pow_zero, natDigits_eval (by omega)]
    decide
  | succ k ih =>
    have h1 : 1 ≤ 10 ^ k := Nat.one_le_pow _ _ (by omega)
    rw [pow_succ, natDigits, dif_neg (by omega)]
    rw [show 10 ^ k * 10 / 10 = 10 ^ k by omega, show 10 ^ k * 10 % 10 = 0 by omega, ih]
    rw [List.replicate_succ']
    rfl

theorem natDigits_21 : natDigits 21 = ['2', '1'] := by
  rw [natDigits, dif_neg (by omega)]
  rw [show (21 : ℕ) / 10 = 2 by omega, show (21 : ℕ) % 10 = 1 by omega,
    natDigits_eval (by omega)]
  decide

/-- Evaluates the large-magnitude branch of `toFixed2` at 10²¹, matching
JavaScript: `(1e21).toFixed(2)` is the exponential string "1e+21". -/
theorem toFixed2_pow21 : toFixed2 (10 ^ 21 : ℚ) = "1e+21" := by
  have hft : (⌊|(10 ^ 21 : ℚ)|⌋).toNat = 10 ^ 21 := by
    rw [abs_of_nonneg (by positivity),
      show ((10 : ℚ) ^ 21) = (((10 ^ 21 : ℕ) : ℤ) : ℚ) by norm_cast,
      Int.floor_intCast, Int.toNat_natCast]
  show (⟨toFixed2Chars (10 ^ 21 : ℚ)⟩ : String) = "1e+21"
  rw [toFixed2Chars, if_pos (by rw [abs_of_nonneg (by positivity)]),
    if_neg (not_lt.mpr (by positivity)), hft, List.nil_append]
  rw [expChars, natDigits_pow10,
    show stripTrailingZeros ('1' :: List.replicate 21 '0') = ['1'] from by decide,
    show ('1' :: List.replicate 21 '0').length - 1 = 21 from by simp, natDigits_21]

/-- C1 (amended): the record returned by `createProductSchema` contains an
`offers` field iff `price` is supplied and `priceCurrency` is supplied and
nonempty — the source tests `priceCurrency` for JavaScript truthiness, so an
empty currency string behaves like an absent one. -/
theorem claim1_offers_iff (o : ProductSchemaOptions) :
    (getField (createProductSchema o) "offers").isSome = true
      ↔ (o.price.isSome = true ∧ ∃ c, o.priceCurrency = some c ∧ c ≠ "") := by
  rw [product_offers_lookup]
  cases hp : o.price with
  | none => simp [offersField, getField]
  | some p =>
    cases hc : o.priceCurrency with
    | none => simp [offersField, getField]
    | some c =>
      by_cases hce : c = ""
      · subst hce
        simp [offersField, getField]
      · simp [offersField, hce, getField]

/-- C1 counterexample: with price = 1 and priceCurrency = "" both `price` and
`priceCurrency` are supplied, yet the returned record has no `offers` field,
contradicting the claimed "if and only if both are supplied". -/
theorem claim1_cx :
    (({ name := "P", description := "D", price := some 1, priceCurrency := some "" }
        : ProductSchemaOptions).price).isSome = true ∧
    (({ name := "P", description := "D", price := some 1, priceCurrency := some "" }
        : ProductSchemaOptions).priceCurrency).isSome = true ∧
    getField (createProductSchema
      { name := "P", description := "D", price := some 1, priceCurrency := some "" })
      "offers" = none :=
  ⟨rfl, rfl, rfl⟩

/-- C5 (amended): when `offers` is emitted, `offers.price` is the price
rendered by `toFixed(2)`; for every price of magnitude below 10²¹ it is a
string made of an integer part free of decimal points, a decimal point and
exactly two decimal digits, with price 0 rendering as "0.00" — at magnitude
10²¹ and above ECMA-262 `toFixed` instead falls back to exponential
`Number::toString`. -/
theorem claim5_price_two_decimals (o : ProductSchemaOptions) (p : ℚ) (c : String)
    (hp : o.price = some p) (hc : o.priceCurrency = some c) (hne : c ≠ "")
    (hsmall : |p| < 10 ^ 21) :
    (∃ fields, getField (createProductSchema o) "offers" = some (.vobj fields) ∧
      getField fields "price" = some (.vstr (toFixed2 p))) ∧
    (∃ ip d1 d2, (toFixed2 p).data = ip ++ '.' :: [d1, d2] ∧
      '.' ∉ ip ∧ d1.isDigit = true ∧ d2.isDigit = true) ∧
    toFixed2 0 = "0.00" := by
  refine ⟨⟨[("@type", .vstr "Offer"), ("price", .vstr (toFixed2 p)),
      ("priceCurrency", .vstr c),
      ("availability", match o.availability with
        | some a => .vstr ("https://schema.org/" ++ a.str)
        | none => Value.undef)], ?_, rfl⟩, ?_, ?_⟩
  · rw [product_offers_lookup, hp, hc]
    simp [offersField, hne, getField]
  · show ∃ ip d1 d2, toFixed2Chars p = ip ++ '.' :: [d1, d2] ∧ _
    rw [toFixed2Chars]
    rw [if_neg (not_le.mpr hsmall)]
    split
    · refine ⟨'-' :: natDigits (⌊|p| * 100 + 1 / 2⌋.toNat / 100),
        digitChar (⌊|p| * 100 + 1 / 2⌋.toNat % 100 / 10),
        digitChar (⌊|p| * 100 + 1 / 2⌋.toNat % 10), rfl, ?_,
        digitChar_isDigit _, digitChar_isDigit _⟩
      simp only [List.mem_cons]
      rintro (h | h)
      · exact absurd h (by decide)
      · exact dot_not_mem_natDigits _ h
    · exact ⟨natDigits (⌊|p| * 100 + 1 / 2⌋.toNat / 100),
        digitChar (⌊|p| * 100 + 1 / 2⌋.toNat % 100 / 10),
        digitChar (⌊|p| * 100 + 1 / 2⌋.toNat % 10), rfl,
        dot_not_mem_natDigits _, digitChar_isDigit _, digitChar_isDigit _⟩
  · have hfloor : (⌊(0 : ℚ) * 100 + 1 / 2⌋ : ℤ) = 0 := by
      rw [Int.floor_eq_iff]
      norm_num
    show (⟨toFixed2Chars 0⟩ : String) = "0.00"
    rw [toFixed2Chars]
    simp only [abs_zero]
    rw [if_neg (by norm_num), if_neg (by norm_num), hfloor]
    rw [natDigits]
    norm_num
    decide

/-- C5 counterexample: 10²¹ is an exactly representable double, and at price
10²¹ with a currency, `offers` is emitted but `offers.price` is the
exponential string "1e+21" — no digits after a decimal point at all —
refuting the claim that the price string always has exactly two digits after
the decimal point. -/
theorem claim5_cx :
    (∃ fields, getField (createProductSchema
        { name := "P", description := "D",
          price := some (10 ^ 21), priceCurrency := some "USD" }) "offers"
        = some (.vobj fields) ∧
      getField fields "price" = some (.vstr (toFixed2 (10 ^ 21)))) ∧
    toFixed2 (10 ^ 21) = "1e+21" ∧
    '.' ∉ (toFixed2 (10 ^ 21)).data := by
  refine ⟨⟨[("@type", .vstr "Offer"), ("price", .vstr (toFixed2 (10 ^ 21))),
      ("priceCurrency", .vstr "USD"), ("availability", Value.undef)], rfl, rfl⟩,
    toFixed2_pow21, ?_⟩
  rw [toFixed2_pow21]
  decide

/-- C5 witness: the spec's scenario — a free product with price 0 and currency
"USD" renders `offers.price` as "0.00". -/
theorem claim5_witness :
    (∃ fields, getField (createProductSchema
        { name := "Free Item", description := "Free product",
          price := some 0, priceCurrency := some "USD" }) "offers"
        = some (.vobj fields) ∧
      getField fields "price" = some (.vstr (toFixed2 0))) ∧
    (∃ ip d1 d2, (toFixed2 0).data = ip ++ '.' :: [d1, d2] ∧
      '.' ∉ ip ∧ d1.isDigit = true ∧ d2.isDigit = true) ∧
    toFixed2 0 = "0.00" :=
  claim5_price_two_decimals
    { name := "Free Item", description := "Free product",
      price := some 0, priceCurrency := some "USD" } 0 "USD" rfl rfl (by decide)
    (by norm_num)

/-- C6: when `offers` is emitted, a supplied availability renders as
`https://schema.org/` followed by the enum value, and an omitted availability
leaves the `availability` key present with an undefined value rather than
omitting the key. -/
theorem claim6_availability (o : ProductSchemaOptions) (p : ℚ) (c : String)
    (hp : o.price = some p) (hc : o.priceCurrency = some c) (hne : c ≠ "") :
    ∃ fields, getField (createProductSchema o) "offers" = some (.vobj fields) ∧
      (∀ a, o.availability = some a →
        getField fields "availability" = some (.vstr ("https://schema.org/" ++ a.str))) ∧
      (o.availability = none → getField fields "availability" = some Value.undef) := by
  refine ⟨[("@type", .vstr "Offer"), ("price", .vstr (toFixed2 p)),
      ("priceCurrency", .vstr c),
      ("availability", match o.availability with
        | some a => .vstr ("https://schema.org/" ++ a.str)
        | none => Value.undef)], ?_, fun a ha => ?_, fun ha => ?_⟩
  · rw [product_offers_lookup, hp, hc]
    simp [offersField, hne, getField]
  · rw [ha]
    rfl
  · rw [ha]
    rfl

/-- C6 witness: a concrete product with price and currency but no
availability carries an `availability` key with an undefined value; the same
product with availability "InStock" carries the schema.org URL string. -/
theorem claim6_witness :
    (∃ fields, getField (createProductSchema
        { name := "W", description := "D",
          price := some 5, priceCurrency := some "USD" }) "offers"
        = some (.vobj fields) ∧
      (∀ a, (none : Option Availability) = some a →
        getField fields "availability" = some (.vstr ("https://schema.org/" ++ a.str))) ∧
      ((none : Option Availability) = none →
        getField fields "availability" = some Value.undef)) ∧
    (∃ fields, getField (createProductSchema
        { name := "W", description := "D", price := some 5,
          priceCurrency := some "USD", availability := some .inStock }) "offers"
        = some (.vobj fields) ∧
      (∀ a, (some Availability.inStock : Option Availability) = some a →
        getField fields "availability" = some (.vstr ("https://schema.org/" ++ a.str))) ∧
      ((some Availability.inStock : Option Availability) = none →
        getField fields "availability" = some Value.undef)) :=
  ⟨claim6_availability
      { name := "W", description := "D", price := some 5, priceCurrency := some "USD" }
      5 "USD" rfl rfl (by decide),
   claim6_availability
      { name := "W", description := "D", price := some 5,
        priceCurrency := some "USD", availability := some .inStock }
      5 "USD" rfl rfl (by decide)⟩

/-- C3 (amended): with a service area supplied, a GeoCircle is emitted when
both `geoMidpoint` and a nonempty `geoRadius` are supplied (coordinates copied
exactly); otherwise a nonempty `city` yields a City record; otherwise —
including region/country-only input, and treating empty strings like absent
fields (JavaScript truthiness) — `areaServed` is absent.  No service area at
all also yields no `areaServed`. -/
theorem claim3_areaServed (o : OrganizationSchemaOptions) :
    (o.areaServed = none → getField (createOrganizationSchema o) "areaServed" = none) ∧
    ∀ a, o.areaServed = some a →
      ((∀ mid r, a.geoMidpoint = some mid → a.geoRadius = some r → r ≠ "" →
        getField (createOrganizationSchema o) "areaServed" = some (.vobj
          [("@type", .vstr "GeoCircle"),
           ("geoMidpoint", .vobj [("@type", .vstr "GeoCoordinates"),
             ("latitude", .vnum mid.latitude), ("longitude", .vnum mid.longitude)]),
           ("geoRadius", .vstr r)])) ∧
       ((a.geoMidpoint = none ∨ a.geoRadius = none ∨ a.geoRadius = some "") →
        ∀ c, a.city = some c → c ≠ "" →
        getField (createOrganizationSchema o) "areaServed" = some (.vobj
          [("@type", .vstr "City"), ("name", .vstr c)])) ∧
       ((a.geoMidpoint = none ∨ a.geoRadius = none ∨ a.geoRadius = some "") →
        (a.city = none ∨ a.city = some "") →
        getField (createOrganizationSchema o) "areaServed" = none)) := by
  refine ⟨fun ha => ?_, fun a ha => ⟨fun mid r hm hr hrne => ?_, fun hgeo c hc hcne => ?_,
    fun hgeo hcity => ?_⟩⟩
  · rw [org_areaServed_lookup, ha]
  · rw [org_areaServed_lookup, ha]
    simp only [areaServedValue, hm, hr]
    rw [if_neg hrne]
  · rw [org_areaServed_lookup, ha]
    rcases hgeo with hm | hr | hr
    · simp only [areaServedValue, hm]
      simp [areaServedValue.cityValue, hc, hcne]
    · cases hm : a.geoMidpoint <;>
        · simp only [areaServedValue, hm, hr]
          simp [areaServedValue.cityValue, hc, hcne]
    · cases hm : a.geoMidpoint <;>
        · simp only [areaServedValue, hm, hr]
          simp [areaServedValue.cityValue, hc, hcne]
  · rw [org_areaServed_lookup, ha]
    have hcv : areaServedValue.cityValue a.city = none := by
      rcases hcity with hc | hc <;> simp [areaServedValue.cityValue, hc]
    rcases hgeo with hm | hr | hr
    · simp only [areaServedValue, hm]
      exact hcv
    · cases hm : a.geoMidpoint <;> simp only [areaServedValue, hm, hr] <;> simp [hcv]
    · cases hm : a.geoMidpoint <;> simp only [areaServedValue, hm, hr] <;> simp [hcv]

/-- C3 counterexample: a service area supplying both `geoMidpoint` and
`geoRadius` (the radius being the empty string) yields no `areaServed` at
all, where the claim demands a GeoCircle record. -/
theorem claim3_cx :
    (({ organization := { name := "T", url := "https://t.example" },
        areaServed := some
          { geoMidpoint := some { latitude := 1, longitude := 2 },
            geoRadius := some "" } }
       : OrganizationSchemaOptions).areaServed.map
         (fun a => (a.geoMidpoint.isSome, a.geoRadius.isSome))) = some (true, true) ∧
    getField (createOrganizationSchema
      { organization := { name := "T", url := "https://t.example" },
        areaServed := some
          { geoMidpoint := some { latitude := 1, longitude := 2 },
            geoRadius := some "" } }) "areaServed" = none :=
  ⟨rfl, rfl⟩

/-- C3 witness: a circle area with midpoint (40, -74) and radius "25km"
produces the GeoCircle record; region/country-only input produces nothing. -/
theorem claim3_witness :
    getField (createOrganizationSchema
      { organization := { name := "T", url := "https://t.example" },
        areaServed := some
          { geoMidpoint := some { latitude := 40, longitude := -74 },
            geoRadius := some "25km" } }) "areaServed"
      = some (.vobj
          [("@type", .vstr "GeoCircle"),
           ("geoMidpoint", .vobj [("@type", .vstr "GeoCoordinates"),
             ("latitude", .vnum 40), ("longitude", .vnum (-74))]),
           ("geoRadius", .vstr "25km")]) ∧
    getField (createOrganizationSchema
      { organization := { name := "Test", url := "https://test.example" },
        areaServed := some { region := some "California", country := some "USA" } })
      "areaServed" = none :=
  ⟨(((claim3_areaServed _).2 _ rfl).1 { latitude := 40, longitude := -74 } "25km"
      rfl rfl (by decide)),
   (((claim3_areaServed _).2 _ rfl).2.2 (Or.inl rfl) (Or.inl rfl))⟩

/-- C4 (amended): `open24Hours = true` takes precedence and yields the literal
"Mo-Su" under `openingHours`; otherwise an OpeningHoursSpecification is
emitted exactly when the day list is present and `opens` and `closes` are
present and nonempty (JavaScript truthiness); any other combination yields
neither output key. -/
theorem claim4_openingHours (o : OrganizationSchemaOptions) :
    (o.openingHoursSpecification = none →
      getField (createOrganizationSchema o) "openingHours" = none ∧
      getField (createOrganizationSchema o) "openingHoursSpecification" = none) ∧
    ∀ oh, o.openingHoursSpecification = some oh →
      ((oh.open24Hours = some true →
        getField (createOrganizationSchema o) "openingHours" = some (.vstr "Mo-Su") ∧
        getField (createOrganizationSchema o) "openingHoursSpecification" = none) ∧
       (oh.open24Hours ≠ some true →
        (∀ days opens closes, oh.dayOfWeek = some days → oh.opens = some opens →
          oh.closes = some closes → opens ≠ "" → closes ≠ "" →
          getField (createOrganizationSchema o) "openingHours" = none ∧
          getField (createOrganizationSchema o) "openingHoursSpecification"
            = some (.vobj [("@type", .vstr "OpeningHoursSpecification"),
                ("dayOfWeek", .varr (days.map (fun d => .vstr d.str))),
                ("opens", .vstr opens), ("closes", .vstr closes)])) ∧
        ((oh.dayOfWeek = none ∨ oh.opens = none ∨ oh.closes = none ∨
          oh.opens = some "" ∨ oh.closes = some "") →
          getField (createOrganizationSchema o) "openingHours" = none ∧
          getField (createOrganizationSchema o) "openingHoursSpecification" = none))) := by
  have lk1 := org_openingHours_lookup o "openingHours" (Or.inl rfl)
  have lk2 := org_openingHours_lookup o "openingHoursSpecification" (Or.inr rfl)
  refine ⟨fun ha => ?_, fun oh ha => ⟨fun h24 => ?_, fun hn24 => ⟨?_, ?_⟩⟩⟩
  · rw [lk1, lk2, ha]
    exact ⟨rfl, rfl⟩
  · rw [lk1, lk2, ha]
    constructor <;>
      · show getField (openingHoursField (some oh)) _ = _
        rw [openingHoursField, openingHoursFields, h24]
        rfl
  · intro days opens closes hd hop hcl hopne hclne
    have h24 : oh.open24Hours.getD false = false := by
      cases h : oh.open24Hours with
      | none => rfl
      | some b =>
        cases b with
        | true => exact absurd h hn24
        | false => rfl
    rw [lk1, lk2, ha]
    constructor <;>
      · show getField (openingHoursField (some oh)) _ = _
        rw [openingHoursField, openingHoursFields, h24]
        simp only [hd, hop, hcl, Bool.false_eq_true, if_false]
        rw [if_neg hopne, if_neg hclne]
        rfl
  · intro hpartial
    have h24 : oh.open24Hours.getD false = false := by
      cases h : oh.open24Hours with
      | none => rfl
      | some b =>
        cases b with
        | true => exact absurd h hn24
        | false => rfl
    rw [lk1, lk2, ha]
    have hfields : openingHoursFields oh = [] := by
      rw [openingHoursFields, h24]
      simp only [Bool.false_eq_true, if_false]
      rcases hpartial with h | h | h | h | h
      · cases hop : oh.opens <;> cases hcl : oh.closes <;> simp [h]
      · cases hd : oh.dayOfWeek <;> cases hcl : oh.closes <;> simp [h]
      · cases hd : oh.dayOfWeek <;> cases hop : oh.opens <;> simp [h]
      · cases hd : oh.dayOfWeek <;> cases hcl : oh.closes <;> simp [h]
      · cases hd : oh.dayOfWeek <;> cases hop : oh.opens <;> simp [h]
    constructor <;>
      · show getField (openingHoursField (some oh)) _ = _
        rw [openingHoursField, hfields]
        rfl

/-- C4 counterexample: all three of day list, `opens`, `closes` are present
(with `opens` the empty string), yet no opening-hours output is produced,
where the claim demands an OpeningHoursSpecification record. -/
theorem claim4_cx :
    (({ organization := { name := "T", url := "https://t.example" },
        openingHoursSpecification := some
          { dayOfWeek := some [.monday],
            opens := some "", closes := some "17:00" } }
       : OrganizationSchemaOptions).openingHoursSpecification.map
         (fun oh => (oh.dayOfWeek.isSome, oh.opens.isSome, oh.closes.isSome)))
      = some (true, true, true) ∧
    getField (createOrganizationSchema
      { organization := { name := "T", url := "https://t.example" },
        openingHoursSpecification := some
          { dayOfWeek := some [.monday],
            opens := some "", closes := some "17:00" } })
      "openingHoursSpecification" = none ∧
    getField (createOrganizationSchema
      { organization := { name := "T", url := "https://t.example" },
        openingHoursSpecification := some
          { dayOfWeek := some [.monday],
            opens := some "", closes := some "17:00" } })
      "openingHours" = none :=
  ⟨rfl, rfl, rfl⟩

/-- C4 witness: the `open24Hours` flag wins over a full schedule and emits the
literal "Mo-Su"; a full schedule without the flag emits the
OpeningHoursSpecification record. -/
theorem claim4_witness :
    (getField (createOrganizationSchema
      { organization := { name := "T", url := "https://t.example" },
        openingHoursSpecification := some
          { dayOfWeek := some [.monday],
            opens := some "09:00", closes := some "17:00", open24Hours := some true } })
      "openingHours" = some (.vstr "Mo-Su") ∧
     getField (createOrganizationSchema
      { organization := { name := "T", url := "https://t.example" },
        openingHoursSpecification := some
          { dayOfWeek := some [.monday],
            opens := some "09:00", closes := some "17:00", open24Hours := some true } })
      "openingHoursSpecification" = none) ∧
    (getField (createOrganizationSchema
      { organization := { name := "T", url := "https://t.example" },
        openingHoursSpecification := some
          { dayOfWeek := some [.monday, .tuesday],
            opens := some "09:00", closes := some "17:00" } })
      "openingHours" = none ∧
     getField (createOrganizationSchema
      { organization := { name := "T", url := "https://t.example" },
        openingHoursSpecification := some
          { dayOfWeek := some [.monday, .tuesday],
            opens := some "09:00", closes := some "17:00" } })
      "openingHoursSpecification"
      = some (.vobj [("@type", .vstr "OpeningHoursSpecification"),
          ("dayOfWeek", .varr ([Weekday.monday, Weekday.tuesday].map (fun d => .vstr d.str))),
          ("opens", .vstr "09:00"), ("closes", .vstr "17:00")])) :=
  ⟨((claim4_openingHours _).2 _ rfl).1 rfl,
   (((claim4_openingHours _).2 _ rfl).2 (by decide)).1 [.monday, .tuesday]
      "09:00" "17:00" rfl rfl rfl (by decide) (by decide)⟩

/-- C2: serializing a schema record (or a sequence of them) and parsing the
result back as JSON returns the original value; the text is array-shaped
(starts with `[`) exactly when the input was a sequence, and object-shaped
(starts with `{`) otherwise. -/
theorem claim2_serializer_roundtrip (input : Json ⊕ List Json)
    (hobj : ∀ j, input = Sum.inl j → ∃ ms, j = Json.jobj ms) :
    parseJson (createJsonLdScript input)
        = some (match input with
                | Sum.inl j => j
                | Sum.inr js => Json.jarr js) ∧
    ((createJsonLdScript input).data.head? = some '[' ↔ ∃ js, input = Sum.inr js) ∧
    ((createJsonLdScript input).data.head? = some '{' ↔ ∃ j, input = Sum.inl j) := by
  cases input with
  | inl j =>
    obtain ⟨ms, rfl⟩ := hobj j rfl
    refine ⟨parseJson_stringify _, ⟨fun h => ?_, fun h => ?_⟩, fun _ => ⟨_, rfl⟩, fun _ => ?_⟩
    · rw [show createJsonLdScript (Sum.inl (Json.jobj ms)) = ⟨strVal (Json.jobj ms)⟩ from rfl,
        show (⟨strVal (Json.jobj ms)⟩ : String).data = strVal (Json.jobj ms) from rfl,
        strVal] at h
      simp at h
    · obtain ⟨js, hjs⟩ := h
      exact absurd hjs (by simp)
    · rw [show createJsonLdScript (Sum.inl (Json.jobj ms)) = ⟨strVal (Json.jobj ms)⟩ from rfl,
        show (⟨strVal (Json.jobj ms)⟩ : String).data = strVal (Json.jobj ms) from rfl,
        strVal]
      rfl
  | inr js =>
    refine ⟨parseJson_stringify _, ⟨fun _ => ⟨js, rfl⟩, fun _ => ?_⟩, fun h => ?_, fun h => ?_⟩
    · rw [show createJsonLdScript (Sum.inr js) = ⟨strVal (Json.jarr js)⟩ from rfl,
        show (⟨strVal (Json.jarr js)⟩ : String).data = strVal (Json.jarr js) from rfl,
        strVal]
      rfl
    · rw [show createJsonLdScript (Sum.inr js) = ⟨strVal (Json.jarr js)⟩ from rfl,
        show (⟨strVal (Json.jarr js)⟩ : String).data = strVal (Json.jarr js) from rfl,
        strVal] at h
      simp at h
    · obtain ⟨j, hj⟩ := h
      exact absurd hj (by simp)

/-- C2 witness: a concrete organization-like record holding non-ASCII and
markup-like text round-trips through the serializer, and its text is
object-shaped, not array-shaped. -/
theorem claim2_witness :
    parseJson (createJsonLdScript (Sum.inl (Json.jobj
        [("@context", Json.jstr "https://schema.org"),
         ("name", Json.jstr "Café <b>\"x\"</b>")])))
      = some (match (Sum.inl (Json.jobj
          [("@context", Json.jstr "https://schema.org"),
           ("name", Json.jstr "Café <b>\"x\"</b>")]) : Json ⊕ List Json) with
        | Sum.inl j => j
        | Sum.inr js => Json.jarr js) ∧
    ((createJsonLdScript (Sum.inl (Json.jobj
        [("@context", Json.jstr "https://schema.org"),
         ("name", Json.jstr "Café <b>\"x\"</b>")]))).data.head? = some '['
      ↔ ∃ js, (Sum.inl (Json.jobj
          [("@context", Json.jstr "https://schema.org"),
           ("name", Json.jstr "Café <b>\"x\"</b>")]) : Json ⊕ List Json) = Sum.inr js) ∧
    ((createJsonLdScript (Sum.inl (Json.jobj
        [("@context", Json.jstr "https://schema.org"),
         ("name", Json.jstr "Café <b>\"x\"</b>")]))).data.head? = some '{'
      ↔ ∃ j, (Sum.inl (Json.jobj
          [("@context", Json.jstr "https://schema.org"),
           ("name", Json.jstr "Café <b>\"x\"</b>")]) : Json ⊕ List Json) = Sum.inl j) :=
  claim2_serializer_roundtrip _ (fun j h => by
    cases h
    exact ⟨_, rfl⟩)

end NextJsonLd
